import Mathlib

/-!
Shallow embedding of the Webscrapper repository core:
`src/utils/helpers.py` (clean_text) and `src/scrapers/job_scraper.py`
(BaseScraper._get_soup, IndeedScraper, LinkedInScraper).

Strings are modelled over their character lists; Python regex character
classes are modelled on their ASCII fragment (the repository only feeds
ASCII markup text through them).
-/

namespace Webscrapper

/-- ASCII fragment of the Python regex class `\s`
(space, tab, newline, carriage return, vertical tab, form feed). -/
def isPySpace (c : Char) : Bool :=
  c = ' ' || c = '\t' || c = '\n' || c = '\r' || c = '\x0b' || c = '\x0c'

/-- ASCII fragment of the Python regex class `\w`: letters, digits, underscore. -/
def isWordChar (c : Char) : Bool :=
  c.isAlpha || c.isDigit || c = '_'

/-- The character set kept by the second substitution in clean_text:
the complement of `[^\w\s.,$]`. -/
def isAllowedChar (c : Char) : Bool :=
  isWordChar c || isPySpace c || c = ',' || c = '.' || c = '$'

/-- Replica of the first substitution in clean_text,
Python re.sub of one or more whitespace by a single space: each maximal run
of whitespace characters is replaced by one space.  The Boolean flag records
whether the previous character belonged to a whitespace run whose single
space was already emitted. -/
def collapseWsGo : List Char → Bool → List Char
  | [], _ => []
  | c :: rest, inRun =>
    if isPySpace c then
      if inRun then collapseWsGo rest true
      else ' ' :: collapseWsGo rest true
    else c :: collapseWsGo rest false

def collapseWs (l : List Char) : List Char := collapseWsGo l false

/-- Python str.strip on the ASCII whitespace fragment: drop leading and
trailing whitespace characters. -/
def pyStripList (l : List Char) : List Char :=
  (((l.dropWhile isPySpace).reverse).dropWhile isPySpace).reverse

/-- str.strip lifted to String. -/
def pyStrip (s : String) : String := ⟨pyStripList s.data⟩

/-- The string branch of helpers.clean_text: collapse whitespace runs, then
delete characters outside the allowed set, then strip. -/
def cleanTextStr (s : String) : String :=
  ⟨pyStripList (List.filter isAllowedChar (collapseWs s.data))⟩

/-- A Python value as seen by clean_text: either an actual str, or any
non-string object, of which only the result of Python str( ) matters. -/
inductive PyValue where
  | ofString (s : String)
  | nonString (stringRepr : String)

/-- helpers.clean_text: non-string input is returned as str(text)
immediately; string input goes through the collapse, filter, strip pipeline. -/
def clean_text : PyValue → String
  | .nonString r => r
  | .ofString s => cleanTextStr s

/-- Decidable check used to refute the consecutive-whitespace property:
true iff the list has two adjacent whitespace characters. -/
def hasConsecWs : List Char → Bool
  | a :: b :: rest => (isPySpace a && isPySpace b) || hasConsecWs (b :: rest)
  | _ => false

mutual

/-- A parsed HTML element as produced by BeautifulSoup: tag name, class
attribute values, the text directly owned by the element, and child
elements in document order.  Children are a mutually inductive list so the
traversals below are structurally recursive (hence evaluable by the
kernel). -/
inductive Node where
  | elem (tag : String) (classes : List String) (ownText : String) (children : NodeList)

/-- Children of an element, in document order. -/
inductive NodeList where
  | nil
  | cons (head : Node) (tail : NodeList)

end

/-- Build a NodeList from an ordinary list. -/
def NodeList.ofList : List Node → NodeList
  | [] => .nil
  | n :: rest => .cons n (NodeList.ofList rest)

def Node.tag : Node → String
  | .elem t _ _ _ => t

def Node.classes : Node → List String
  | .elem _ cs _ _ => cs

def Node.children : Node → NodeList
  | .elem _ _ _ ch => ch

mutual

/-- BeautifulSoup .text of one element: all text in its subtree, own text
of an element before the text of its children. -/
def Node.text : Node → String
  | .elem _ _ tx ch => tx ++ textList ch

/-- Concatenated text of a forest of nodes, in document order. -/
def textList : NodeList → String
  | .nil => ""
  | .cons n rest => n.text ++ textList rest

end

/-- Does an element match a tag-and-class selector, as in
soup.find(tag, class_=cls)? -/
def selectorMatch (tag cls : String) (n : Node) : Bool :=
  n.tag = tag && cls ∈ n.classes

mutual

/-- First match for the selector within a node, the node itself included,
in depth-first pre-order; a matching node shadows its own subtree. -/
def findFirstWithin (tag cls : String) : Node → Option Node
  | Node.elem t cs tx ch =>
    if selectorMatch tag cls (Node.elem t cs tx ch) then some (Node.elem t cs tx ch)
    else findFirstList tag cls ch

/-- First node of a forest, in depth-first pre-order, matching the
selector. -/
def findFirstList (tag cls : String) : NodeList → Option Node
  | .nil => none
  | .cons n rest =>
    match findFirstWithin tag cls n with
    | some m => some m
    | none => findFirstList tag cls rest

end

/-- BeautifulSoup element.find(tag, class_=cls): first matching descendant,
the element itself excluded; None when absent. -/
def findNode (n : Node) (tag cls : String) : Option Node :=
  findFirstList tag cls n.children

mutual

/-- All matches for the selector within a node, the node itself included,
in depth-first pre-order; nested matches are all collected. -/
def findAllWithin (tag cls : String) : Node → List Node
  | Node.elem t cs tx ch =>
    (if selectorMatch tag cls (Node.elem t cs tx ch) then [Node.elem t cs tx ch] else [])
      ++ findAllList tag cls ch

/-- All nodes of a forest matching the selector, in depth-first pre-order. -/
def findAllList (tag cls : String) : NodeList → List Node
  | .nil => []
  | .cons n rest => findAllWithin tag cls n ++ findAllList tag cls rest

end

/-- BeautifulSoup soup.find_all(tag, class_=cls) over the descendants of
the document node. -/
def nodeFindAll (n : Node) (tag cls : String) : List Node :=
  findAllList tag cls n.children

/-- Outcome of one HTTP attempt by session.get inside BaseScraper._get_soup:
either a response with a status code and a parsed body, or a
requests.RequestException (connection error, timeout, and so on). -/
inductive AttemptOutcome where
  | response (status : Nat) (body : Node)
  | netError

/-- How a call of BaseScraper._get_soup ends: a parsed document is
returned, the last exception is re-raised, or the for loop is exhausted and
the Python function implicitly returns None. -/
inductive FetchResult where
  | doc (soup : Node)
  | exn
  | implicitNone

/-- requests.Response.raise_for_status raises HTTPError exactly for the
4xx and 5xx status codes. -/
def raisesForStatus (status : Nat) : Bool :=
  400 ≤ status && status < 600

/-- The retry loop of BaseScraper._get_soup, from a given attempt index,
with the number of loop iterations still available (max_retries minus
attempt) and the current retry_delay.  outcomes gives the result of the
HTTP request of each attempt.  Besides the result, the list of backoff
sleeps performed (time.sleep(retry_delay)) is returned; the politeness
sleeps before each request are not recorded.

An attempt whose response neither raises (status outside 4xx/5xx) nor has
status 200 falls through the if without returning: the loop moves on
without any backoff sleep and without doubling retry_delay. -/
def getSoupLoop (outcomes : Nat → AttemptOutcome) :
    Nat → Nat → Nat → FetchResult × List Nat
  | _, 0, _ => (.implicitNone, [])
  | attempt, fuel + 1, retryDelay =>
    let onExc : FetchResult × List Nat :=
      if fuel = 0 then (.exn, [])
      else
        let rest := getSoupLoop outcomes (attempt + 1) fuel (retryDelay * 2)
        (rest.1, retryDelay :: rest.2)
    match outcomes attempt with
    | .netError => onExc
    | .response status body =>
      if raisesForStatus status then onExc
      else if status = 200 then (.doc body, [])
      else getSoupLoop outcomes (attempt + 1) fuel retryDelay

/-- BaseScraper._get_soup: max_retries = 3, initial retry_delay = 5. -/
def getSoup (outcomes : Nat → AttemptOutcome) : FetchResult × List Nat :=
  getSoupLoop outcomes 0 3 5

/-- An attempt the except branch of _get_soup handles: a raised
RequestException, from the network or from raise_for_status. -/
def attemptFails : AttemptOutcome → Bool
  | .netError => true
  | .response status _ => raisesForStatus status

/-- A job record as built by the extractors: a Python dict, modelled as the
association list of its entries in insertion order. -/
abbrev Dict := List (String × String)

/-- IndeedScraper._extract_job_data, salary part: the optional node with
default. -/
def indeedSalary (job : Node) : String :=
  match findNode job "div" "salary-snippet" with
  | some s => pyStrip s.text
  | none => "Not specified"

/-- IndeedScraper._extract_job_data.  The chain of required lookups is
mirrored by nested matches: in the source, .text on the None of a failed
find raises AttributeError, caught by the except branch which returns the
empty dict. -/
def indeedExtractJobData (job : Node) : Dict :=
  match findNode job "h2" "jobTitle" with
  | none => []
  | some tEl =>
    match findNode job "span" "companyName" with
    | none => []
    | some cEl =>
      match findNode job "div" "companyLocation" with
      | none => []
      | some lEl =>
        [("title", cleanTextStr (pyStrip tEl.text)),
         ("company", cleanTextStr (pyStrip cEl.text)),
         ("location", cleanTextStr (pyStrip lEl.text)),
         ("salary", cleanTextStr (indeedSalary job)),
         ("source", "Indeed")]

/-- Does the pattern occur as a contiguous sublist, at this position or
later? -/
def subOccurs (pat : List Char) : List Char → Bool
  | [] => pat.isEmpty
  | c :: rest => pat.isPrefixOf (c :: rest) || subOccurs pat rest

/-- Python substring containment, sub in s. -/
def containsSub (s sub : String) : Bool :=
  subOccurs sub.data s.data

/-- Python str.lower on the ASCII fragment. -/
def strToLower (s : String) : String := ⟨s.data.map Char.toLower⟩

/-- The job_type inference of LinkedInScraper._extract_job_data: keyword
match on the lowercased title, first hit of the if/elif chain wins,
Full-time as the default. -/
def inferJobType (title : String) : String :=
  let titleLower := strToLower title
  if containsSub titleLower "contract" || containsSub titleLower "contractor" then
    "Contract"
  else if containsSub titleLower "part-time" then "Part-time"
  else if containsSub titleLower "intern" then "Internship"
  else if containsSub titleLower "temporary" then "Temporary"
  else "Full-time"

/-- LinkedInScraper._extract_job_data, salary part. -/
def linkedinSalary (job : Node) : String :=
  match findNode job "span" "job-search-card__salary-info" with
  | some s => pyStrip s.text
  | none => "Not specified"

/-- LinkedInScraper._extract_job_data, with the same boundary convention as
the Indeed variant.  job_type is computed from the stripped raw title and
stored without passing through clean_text; source is the fixed literal. -/
def linkedinExtractJobData (job : Node) : Dict :=
  match findNode job "h3" "base-search-card__title" with
  | none => []
  | some tEl =>
    match findNode job "h4" "base-search-card__subtitle" with
    | none => []
    | some cEl =>
      match findNode job "span" "job-search-card__location" with
      | none => []
      | some lEl =>
        [("title", cleanTextStr (pyStrip tEl.text)),
         ("company", cleanTextStr (pyStrip cEl.text)),
         ("location", cleanTextStr (pyStrip lEl.text)),
         ("salary", cleanTextStr (linkedinSalary job)),
         ("job_type", inferJobType (pyStrip tEl.text)),
         ("source", "LinkedIn")]

/-- The network environment a scrape run interacts with: for each URL, the
outcome of its i-th HTTP attempt. -/
abbrev Web := String → Nat → AttemptOutcome

/-- The page URL built by IndeedScraper.scrape_job_listings: the start
query parameter advances by 10 per page. -/
def indeedPageUrl (url : String) (page : Nat) : String :=
  url ++ "&start=" ++ toString (page * 10)

/-- One iteration body of the Indeed pagination loop: the job dicts this
page contributes.  A _get_soup call that raises, or that returns None (on
which soup.find_all raises AttributeError), is caught by the per-page
except branch, which logs and continues: the page contributes nothing.
On a parsed page, each job card is extracted and only truthy (non-empty)
dicts are appended. -/
def indeedPageJobs (web : Web) (url : String) (page : Nat) : List Dict :=
  match (getSoup (web (indeedPageUrl url page))).1 with
  | .doc soup =>
    (nodeFindAll soup "div" "job_seen_beacon").filterMap fun card =>
      let jobData := indeedExtractJobData card
      if jobData = [] then none else some jobData
  | .exn => []
  | .implicitNone => []

/-- The for loop of IndeedScraper.scrape_job_listings with its jobs
accumulator, instrumented with the list of page URLs passed to _get_soup.
fuel is the number of page indices still to visit. -/
def indeedScrapeGo (web : Web) (url : String) :
    List Dict → Nat → Nat → List Dict × List String
  | jobs, _, 0 => (jobs, [])
  | jobs, page, fuel + 1 =>
    let rest := indeedScrapeGo web url (jobs ++ indeedPageJobs web url page) (page + 1) fuel
    (rest.1, indeedPageUrl url page :: rest.2)

/-- IndeedScraper.scrape_job_listings: the returned job list. -/
def indeedScrapeJobListings (web : Web) (url : String) (maxPages : Nat) : List Dict :=
  (indeedScrapeGo web url [] 0 maxPages).1

/-- The page URLs IndeedScraper.scrape_job_listings hands to _get_soup,
one per page index. -/
def indeedFetchTrace (web : Web) (url : String) (maxPages : Nat) : List String :=
  (indeedScrapeGo web url [] 0 maxPages).2

/-- The page URL built by LinkedInScraper.scrape_job_listings: the start
query parameter advances by 25 per page. -/
def linkedinPageUrl (url : String) (page : Nat) : String :=
  url ++ "&start=" ++ toString (page * 25)

/-- One iteration body of the LinkedIn pagination loop; same per-page
failure handling as the Indeed variant, with the base-card selector. -/
def linkedinPageJobs (web : Web) (url : String) (page : Nat) : List Dict :=
  match (getSoup (web (linkedinPageUrl url page))).1 with
  | .doc soup =>
    (nodeFindAll soup "div" "base-card").filterMap fun card =>
      let jobData := linkedinExtractJobData card
      if jobData = [] then none else some jobData
  | .exn => []
  | .implicitNone => []

/-- The for loop of LinkedInScraper.scrape_job_listings, instrumented like
the Indeed variant. -/
def linkedinScrapeGo (web : Web) (url : String) :
    List Dict → Nat → Nat → List Dict × List String
  | jobs, _, 0 => (jobs, [])
  | jobs, page, fuel + 1 =>
    let rest := linkedinScrapeGo web url (jobs ++ linkedinPageJobs web url page) (page + 1) fuel
    (rest.1, linkedinPageUrl url page :: rest.2)

/-- LinkedInScraper.scrape_job_listings: the returned job list. -/
def linkedinScrapeJobListings (web : Web) (url : String) (maxPages : Nat) : List Dict :=
  (linkedinScrapeGo web url [] 0 maxPages).1

/-- The page URLs LinkedInScraper.scrape_job_listings hands to _get_soup. -/
def linkedinFetchTrace (web : Web) (url : String) (maxPages : Nat) : List String :=
  (linkedinScrapeGo web url [] 0 maxPages).2

/-- A sample Indeed job card with the three required sub-nodes and no
salary node. -/
def sampleIndeedCard : Node :=
  .elem "div" ["job_seen_beacon"] "" (NodeList.ofList
    [.elem "h2" ["jobTitle"] "Software Engineer" .nil,
     .elem "span" ["companyName"] "Acme Corp" .nil,
     .elem "div" ["companyLocation"] "Remote" .nil])

/-- A one-card parsed Indeed results page. -/
def sampleIndeedSoup : Node :=
  .elem "[document]" [] "" (NodeList.cons sampleIndeedCard .nil)

/-- A network that answers every request with the sample Indeed page. -/
def sampleIndeedWeb : Web := fun _ _ => .response 200 sampleIndeedSoup

/-- A sample LinkedIn job card with the three required sub-nodes and no
salary node. -/
def sampleLinkedinCard : Node :=
  .elem "div" ["base-card"] "" (NodeList.ofList
    [.elem "h3" ["base-search-card__title"] "Data Analyst" .nil,
     .elem "h4" ["base-search-card__subtitle"] "Globex" .nil,
     .elem "span" ["job-search-card__location"] "Berlin" .nil])

/-- The backoff sleeps a run of failing attempts produces: one sleep per
retried attempt, starting at the given delay and doubling. -/
def backoffSleeps (d : Nat) : Nat → List Nat
  | 0 => []
  | f + 1 => d :: backoffSleeps (d * 2) f

/-!  Helper lemmas. -/

theorem head?_dropWhile_false {p : Char → Bool} {l : List Char} {c : Char}
    (h : (l.dropWhile p).head? = some c) : p c = false := by
  induction l with
  | nil => simp at h
  | cons a rest ih =>
    rw [List.dropWhile_cons] at h
    by_cases hp : p a
    · rw [if_pos hp] at h
      exact ih h
    · rw [if_neg hp] at h
      simp only [List.head?_cons, Option.some.injEq] at h
      subst h
      exact Bool.eq_false_iff.mpr hp

theorem getLast?_of_dropWhile_getLast? {p : Char → Bool} {l : List Char} {c : Char}
    (h : (l.dropWhile p).getLast? = some c) : l.getLast? = some c := by
  induction l with
  | nil => simp at h
  | cons a rest ih =>
    rw [List.dropWhile_cons] at h
    by_cases hp : p a
    · rw [if_pos hp] at h
      have h2 := ih h
      cases rest with
      | nil => simp at h2
      | cons b rs => rw [List.getLast?_cons_cons]; exact h2
    · rw [if_neg hp] at h
      exact h

theorem mem_pyStripList {c : Char} {l : List Char} (h : c ∈ pyStripList l) : c ∈ l := by
  unfold pyStripList at h
  have h2 := List.mem_reverse.mp h
  have h3 := List.Sublist.mem h2 (List.dropWhile_sublist _)
  have h4 := List.mem_reverse.mp h3
  exact List.Sublist.mem h4 (List.dropWhile_sublist _)

theorem pyStripList_head? {l : List Char} {c : Char}
    (h : (pyStripList l).head? = some c) : isPySpace c = false := by
  unfold pyStripList at h
  rw [List.head?_reverse] at h
  have h2 := getLast?_of_dropWhile_getLast? h
  rw [List.getLast?_reverse] at h2
  exact head?_dropWhile_false h2

theorem pyStripList_getLast? {l : List Char} {c : Char}
    (h : (pyStripList l).getLast? = some c) : isPySpace c = false := by
  unfold pyStripList at h
  rw [List.getLast?_reverse] at h
  exact head?_dropWhile_false h

theorem getSoupLoop_allFail (outcomes : Nat → AttemptOutcome) :
    ∀ fuel attempt d,
      (∀ i, attempt ≤ i → i < attempt + (fuel + 1) → attemptFails (outcomes i) = true) →
      getSoupLoop outcomes attempt (fuel + 1) d = (.exn, backoffSleeps d fuel) := by
  intro fuel
  induction fuel with
  | zero =>
    intro attempt d h
    have ha := h attempt (Nat.le_refl _) (by omega)
    rw [getSoupLoop]
    cases ho : outcomes attempt with
    | netError => simp [backoffSleeps]
    | response status body =>
      rw [ho] at ha
      simp only [attemptFails] at ha
      simp [ha, backoffSleeps]
  | succ f ih =>
    intro attempt d h
    have ha := h attempt (Nat.le_refl _) (by omega)
    have hrest := ih (attempt + 1) (d * 2) (fun i h1 h2 => h i (by omega) (by omega))
    rw [getSoupLoop]
    cases ho : outcomes attempt with
    | netError => simp [hrest, backoffSleeps]
    | response status body =>
      rw [ho] at ha
      simp only [attemptFails] at ha
      simp [ha, hrest, backoffSleeps]

theorem getSoup_allFail (outcomes : Nat → AttemptOutcome)
    (h : ∀ i, i < 3 → attemptFails (outcomes i) = true) :
    getSoup outcomes = (.exn, [5, 10]) := by
  have := getSoupLoop_allFail outcomes 2 0 5 (fun i h1 h2 => h i (by omega))
  simpa [getSoup, backoffSleeps] using this

theorem getSoup_ok (outcomes : Nat → AttemptOutcome) (body : Node)
    (h : outcomes 0 = .response 200 body) :
    getSoup outcomes = (.doc body, []) := by
  rw [getSoup, getSoupLoop, h]
  simp [raisesForStatus]

theorem getSoupLoop_agree (o1 o2 : Nat → AttemptOutcome) :
    ∀ fuel attempt d, (∀ i, attempt ≤ i → i < attempt + fuel → o1 i = o2 i) →
      getSoupLoop o1 attempt fuel d = getSoupLoop o2 attempt fuel d := by
  intro fuel
  induction fuel with
  | zero => intro attempt d _; rfl
  | succ f ih =>
    intro attempt d h
    have ha := h attempt (Nat.le_refl _) (by omega)
    have hrest2 := ih (attempt + 1) (d * 2) (fun i h1 h2 => h i (by omega) (by omega))
    have hrest1 := ih (attempt + 1) d (fun i h1 h2 => h i (by omega) (by omega))
    rw [getSoupLoop, getSoupLoop, ha, hrest1, hrest2]

theorem getSoupLoop_fallThrough (outcomes : Nat → AttemptOutcome) :
    ∀ fuel attempt d,
      (∀ i, attempt ≤ i → i < attempt + fuel →
        ∃ s b, outcomes i = .response s b ∧ raisesForStatus s = false ∧ s ≠ 200) →
      getSoupLoop outcomes attempt fuel d = (.implicitNone, []) := by
  intro fuel
  induction fuel with
  | zero => intro attempt d _; rfl
  | succ f ih =>
    intro attempt d h
    obtain ⟨s, b, ho, hs, hs200⟩ := h attempt (Nat.le_refl _) (by omega)
    have hrest := ih (attempt + 1) d (fun i h1 h2 => h i (by omega) (by omega))
    rw [getSoupLoop, ho]
    simp [hs, hs200, hrest]

theorem indeedScrapeGo_spec (web : Web) (url : String) :
    ∀ fuel page jobs,
      indeedScrapeGo web url jobs page fuel =
        (jobs ++ (List.range' page fuel).flatMap (indeedPageJobs web url),
         (List.range' page fuel).map (indeedPageUrl url)) := by
  intro fuel
  induction fuel with
  | zero => intro page jobs; simp [indeedScrapeGo]
  | succ f ih =>
    intro page jobs
    rw [indeedScrapeGo, ih]
    simp [List.range'_succ, List.flatMap_cons]

theorem linkedinScrapeGo_spec (web : Web) (url : String) :
    ∀ fuel page jobs,
      linkedinScrapeGo web url jobs page fuel =
        (jobs ++ (List.range' page fuel).flatMap (linkedinPageJobs web url),
         (List.range' page fuel).map (linkedinPageUrl url)) := by
  intro fuel
  induction fuel with
  | zero => intro page jobs; simp [linkedinScrapeGo]
  | succ f ih =>
    intro page jobs
    rw [linkedinScrapeGo, ih]
    simp [List.range'_succ, List.flatMap_cons]

theorem indeedScrape_flatMap (web : Web) (url : String) (maxPages : Nat) :
    indeedScrapeJobListings web url maxPages =
      (List.range maxPages).flatMap (indeedPageJobs web url) := by
  rw [indeedScrapeJobListings, indeedScrapeGo_spec, List.range_eq_range']
  simp

theorem linkedinScrape_flatMap (web : Web) (url : String) (maxPages : Nat) :
    linkedinScrapeJobListings web url maxPages =
      (List.range maxPages).flatMap (linkedinPageJobs web url) := by
  rw [linkedinScrapeJobListings, linkedinScrapeGo_spec, List.range_eq_range']
  simp

theorem indeedTrace_map (web : Web) (url : String) (maxPages : Nat) :
    indeedFetchTrace web url maxPages = (List.range maxPages).map (indeedPageUrl url) := by
  rw [indeedFetchTrace, indeedScrapeGo_spec, List.range_eq_range']

theorem linkedinTrace_map (web : Web) (url : String) (maxPages : Nat) :
    linkedinFetchTrace web url maxPages = (List.range maxPages).map (linkedinPageUrl url) := by
  rw [linkedinFetchTrace, linkedinScrapeGo_spec, List.range_eq_range']

theorem mem_indeedPageJobs {web : Web} {url : String} {page : Nat} {d : Dict}
    (h : d ∈ indeedPageJobs web url page) :
    ∃ card, d = indeedExtractJobData card ∧ d ≠ [] := by
  unfold indeedPageJobs at h
  cases hr : (getSoup (web (indeedPageUrl url page))).1 with
  | doc soup =>
    rw [hr] at h
    obtain ⟨card, _, hc⟩ := List.mem_filterMap.mp h
    by_cases he : indeedExtractJobData card = []
    · simp [he] at hc
    · simp only [he, if_neg] at hc
      refine ⟨card, ?_, ?_⟩
      · simp_all
      · simp_all
  | exn => rw [hr] at h; simp at h
  | implicitNone => rw [hr] at h; simp at h

theorem mem_linkedinPageJobs {web : Web} {url : String} {page : Nat} {d : Dict}
    (h : d ∈ linkedinPageJobs web url page) :
    ∃ card, d = linkedinExtractJobData card ∧ d ≠ [] := by
  unfold linkedinPageJobs at h
  cases hr : (getSoup (web (linkedinPageUrl url page))).1 with
  | doc soup =>
    rw [hr] at h
    obtain ⟨card, _, hc⟩ := List.mem_filterMap.mp h
    by_cases he : linkedinExtractJobData card = []
    · simp [he] at hc
    · simp only [he, if_neg] at hc
      refine ⟨card, ?_, ?_⟩
      · simp_all
      · simp_all
  | exn => rw [hr] at h; simp at h
  | implicitNone => rw [hr] at h; simp at h

theorem indeedExtract_shape (job : Node) :
    indeedExtractJobData job = [] ∨
    ∃ tEl cEl lEl,
      findNode job "h2" "jobTitle" = some tEl ∧
      findNode job "span" "companyName" = some cEl ∧
      findNode job "div" "companyLocation" = some lEl ∧
      indeedExtractJobData job =
        [("title", cleanTextStr (pyStrip tEl.text)),
         ("company", cleanTextStr (pyStrip cEl.text)),
         ("location", cleanTextStr (pyStrip lEl.text)),
         ("salary", cleanTextStr (indeedSalary job)),
         ("source", "Indeed")] := by
  cases ht : findNode job "h2" "jobTitle" with
  | none => left; simp [indeedExtractJobData, ht]
  | some tEl =>
    cases hc : findNode job "span" "companyName" with
    | none => left; simp [indeedExtractJobData, ht, hc]
    | some cEl =>
      cases hl : findNode job "div" "companyLocation" with
      | none => left; simp [indeedExtractJobData, ht, hc, hl]
      | some lEl =>
        right
        exact ⟨tEl, cEl, lEl, rfl, rfl, rfl, by simp [indeedExtractJobData, ht, hc, hl]⟩

theorem linkedinExtract_shape (job : Node) :
    linkedinExtractJobData job = [] ∨
    ∃ tEl cEl lEl,
      findNode job "h3" "base-search-card__title" = some tEl ∧
      findNode job "h4" "base-search-card__subtitle" = some cEl ∧
      findNode job "span" "job-search-card__location" = some lEl ∧
      linkedinExtractJobData job =
        [("title", cleanTextStr (pyStrip tEl.text)),
         ("company", cleanTextStr (pyStrip cEl.text)),
         ("location", cleanTextStr (pyStrip lEl.text)),
         ("salary", cleanTextStr (linkedinSalary job)),
         ("job_type", inferJobType (pyStrip tEl.text)),
         ("source", "LinkedIn")] := by
  cases ht : findNode job "h3" "base-search-card__title" with
  | none => left; simp [linkedinExtractJobData, ht]
  | some tEl =>
    cases hc : findNode job "h4" "base-search-card__subtitle" with
    | none => left; simp [linkedinExtractJobData, ht, hc]
    | some cEl =>
      cases hl : findNode job "span" "job-search-card__location" with
      | none => left; simp [linkedinExtractJobData, ht, hc, hl]
      | some lEl =>
        right
        exact ⟨tEl, cEl, lEl, rfl, rfl, rfl, by simp [linkedinExtractJobData, ht, hc, hl]⟩

theorem inferJobType_mem_five (title : String) :
    inferJobType title ∈
      (["Contract", "Part-time", "Internship", "Temporary", "Full-time"] : List String) := by
  simp only [inferJobType]
  split
  · simp
  · split
    · simp
    · split
      · simp
      · split <;> simp

theorem flatMapPages_nil (l : List Nat) (f : Nat → List Dict) (h : ∀ a, f a = []) :
    l.flatMap f = [] := by
  induction l with
  | nil => rfl
  | cons a t ih => simp [List.flatMap_cons, h, ih]

/-!  Claim theorems. -/

/-- Claim C1: for every base URL and every maxPages, scrape_job_listings
never raises; each page's failure, including _get_soup exhausting its
retries, is caught at the per-page boundary (modelled by the exn branch of
indeedPageJobs / linkedinPageJobs mapping to the empty contribution), so
against a fetch stub that fails every request the call returns the empty
list for both scrapers. -/
theorem scrapeJobListings_never_fails_empty (web : Web) (url : String) (maxPages : Nat)
    (h : ∀ u i, web u i = AttemptOutcome.netError) :
    indeedScrapeJobListings web url maxPages = [] ∧
    linkedinScrapeJobListings web url maxPages = [] := by
  have hg : ∀ u, getSoup (web u) = (.exn, [5, 10]) := fun u =>
    getSoup_allFail (web u) (fun i _ => by rw [h]; rfl)
  have hp : ∀ page, indeedPageJobs web url page = [] := by
    intro page
    unfold indeedPageJobs
    rw [hg]
  have hq : ∀ page, linkedinPageJobs web url page = [] := by
    intro page
    unfold linkedinPageJobs
    rw [hg]
  constructor
  · rw [indeedScrape_flatMap]
    exact flatMapPages_nil _ _ hp
  · rw [linkedinScrape_flatMap]
    exact flatMapPages_nil _ _ hq

/-- Claim C1 witness: the all-failures stub at maxPages = 3 yields the
empty list for both scrapers. -/
theorem scrapeJobListings_never_fails_empty_witness :
    indeedScrapeJobListings (fun _ _ => AttemptOutcome.netError)
        "http://example.com/jobs?q=python" 3 = [] ∧
    linkedinScrapeJobListings (fun _ _ => AttemptOutcome.netError)
        "http://example.com/jobs?q=python" 3 = [] :=
  scrapeJobListings_never_fails_empty _ _ 3 (fun _ _ => rfl)

/-- Claim C2 counterexample: a response with the non-2xx status 304 is not
treated as a failure of the attempt: raise_for_status only raises for 4xx
and 5xx, the 200 test then fails, and the loop silently moves on.  With
three such responses _get_soup performs no backoff sleep at all and ends by
returning None instead of propagating a failure. -/
theorem getSoup_non2xx_counterexample :
    getSoup (fun _ => AttemptOutcome.response 304 (Node.elem "html" [] "" .nil)) =
      (FetchResult.implicitNone, []) ∧
    FetchResult.implicitNone ≠ FetchResult.exn :=
  ⟨rfl, fun h => FetchResult.noConfusion h⟩

/-- Claim C2 (amended): _get_soup treats a network error, a timeout, or a
4xx/5xx status (those raise_for_status raises on) as the failure of the
current attempt; it makes at most 3 attempts (the result only depends on
the first three outcomes), sleeps 5 seconds after the first such failure
and 10 after the second, and after the third the failure propagates; on
HTTP 200 the parsed document is returned.  A response whose status is
neither 200 nor in 4xx/5xx silently consumes the attempt with no backoff
sleep, and if every attempt ends that way the function returns None
instead of raising. -/
theorem getSoup_retry_behavior :
    (∀ outcomes : Nat → AttemptOutcome,
      (∀ i, i < 3 → attemptFails (outcomes i) = true) →
      getSoup outcomes = (FetchResult.exn, [5, 10])) ∧
    (∀ (outcomes : Nat → AttemptOutcome) (body : Node),
      outcomes 0 = AttemptOutcome.response 200 body →
      getSoup outcomes = (FetchResult.doc body, [])) ∧
    (∀ o1 o2 : Nat → AttemptOutcome, (∀ i, i < 3 → o1 i = o2 i) →
      getSoup o1 = getSoup o2) ∧
    (∀ outcomes : Nat → AttemptOutcome,
      (∀ i, i < 3 → ∃ s b, outcomes i = AttemptOutcome.response s b ∧
        raisesForStatus s = false ∧ s ≠ 200) →
      getSoup outcomes = (FetchResult.implicitNone, [])) := by
  refine ⟨?_, ?_, ?_, ?_⟩
  · exact fun outcomes h => getSoup_allFail outcomes h
  · exact fun outcomes body h => getSoup_ok outcomes body h
  · intro o1 o2 h
    exact getSoupLoop_agree o1 o2 3 0 5 (fun i h1 h2 => h i (by omega))
  · intro outcomes h
    exact getSoupLoop_fallThrough outcomes 3 0 5 (fun i h1 h2 => h i (by omega))

/-- Claim C2 witness: three network errors give the exception result after
backoff sleeps of 5 and 10 seconds. -/
theorem getSoup_retry_behavior_witness :
    getSoup (fun _ => AttemptOutcome.netError) = (FetchResult.exn, [5, 10]) :=
  getSoup_retry_behavior.1 (fun _ => AttemptOutcome.netError) (fun _ _ => rfl)

/-- Claim C3: _extract_job_data never raises past its own boundary; a
missing required node (title, company or location) makes the lookup chain
fail, which the except branch converts to the empty mapping, for both
scraper variants. -/
theorem extract_missing_required_gives_empty (job : Node) :
    ((findNode job "h2" "jobTitle" = none ∨
      findNode job "span" "companyName" = none ∨
      findNode job "div" "companyLocation" = none) →
      indeedExtractJobData job = []) ∧
    ((findNode job "h3" "base-search-card__title" = none ∨
      findNode job "h4" "base-search-card__subtitle" = none ∨
      findNode job "span" "job-search-card__location" = none) →
      linkedinExtractJobData job = []) := by
  constructor
  · intro h
    rcases indeedExtract_shape job with he | ⟨t, c, l, ht, hc, hl, _⟩
    · exact he
    · rcases h with h | h | h <;> simp_all
  · intro h
    rcases linkedinExtract_shape job with he | ⟨t, c, l, ht, hc, hl, _⟩
    · exact he
    · rcases h with h | h | h <;> simp_all

/-- Claim C3 witness: a card with company and location but no title node
extracts to the empty mapping. -/
theorem extract_missing_required_gives_empty_witness :
    indeedExtractJobData (Node.elem "div" ["job_seen_beacon"] "" (NodeList.ofList
      [Node.elem "span" ["companyName"] "Acme Corp" .nil,
       Node.elem "div" ["companyLocation"] "Remote" .nil])) = [] :=
  (extract_missing_required_gives_empty _).1 (Or.inl rfl)

/-- Claim C4: every record in the list scrape_job_listings returns is
fully populated-or-defaulted: empty mappings are discarded by the truthy
test before aggregation, so every aggregated record carries exactly the
full field set of its scraper. -/
theorem scrape_records_fully_populated :
    (∀ (web : Web) (url : String) (maxPages : Nat) (d : Dict),
      d ∈ indeedScrapeJobListings web url maxPages →
      d.map Prod.fst = ["title", "company", "location", "salary", "source"]) ∧
    (∀ (web : Web) (url : String) (maxPages : Nat) (d : Dict),
      d ∈ linkedinScrapeJobListings web url maxPages →
      d.map Prod.fst = ["title", "company", "location", "salary", "job_type", "source"]) := by
  constructor
  · intro web url maxPages d hd
    rw [indeedScrape_flatMap] at hd
    obtain ⟨page, _, hp⟩ := List.mem_flatMap.mp hd
    obtain ⟨card, hdc, hne⟩ := mem_indeedPageJobs hp
    rcases indeedExtract_shape card with he | ⟨t, c, l, _, _, _, hr⟩
    · exact absurd (hdc.trans he) hne
    · rw [hdc, hr]
      rfl
  · intro web url maxPages d hd
    rw [linkedinScrape_flatMap] at hd
    obtain ⟨page, _, hp⟩ := List.mem_flatMap.mp hd
    obtain ⟨card, hdc, hne⟩ := mem_linkedinPageJobs hp
    rcases linkedinExtract_shape card with he | ⟨t, c, l, _, _, _, hr⟩
    · exact absurd (hdc.trans he) hne
    · rw [hdc, hr]
      rfl

/-- Claim C4 witness: the record scraped from the sample one-card page
carries the five Indeed fields. -/
theorem scrape_records_fully_populated_witness :
    (indeedExtractJobData sampleIndeedCard).map Prod.fst =
      ["title", "company", "location", "salary", "source"] :=
  scrape_records_fully_populated.1 sampleIndeedWeb "u" 1 _ (by decide)

/-- Claim C5 counterexample: clean_text collapses whitespace before
removing disallowed characters, so removing the characters between two
single spaces leaves two consecutive spaces: clean_text of
the string a space exclamation at space b is the string a space space b. -/
theorem clean_text_consecutive_ws_counterexample :
    clean_text (PyValue.ofString "a !@ b") = "a  b" ∧
    hasConsecWs (clean_text (PyValue.ofString "a !@ b")).data = true := by
  constructor
  · rfl
  · decide

/-- Claim C5 (amended): for every string input, the output of clean_text
contains no character outside the set of letters, digits, underscore,
whitespace, comma, period and dollar sign, and has no leading or trailing
whitespace.  The no-two-consecutive-whitespace part of the claim is false:
whitespace collapsing runs before character removal, so removing disallowed
characters that separate two whitespace runs can leave consecutive
spaces. -/
theorem clean_text_output_charset_and_trim (s : String) :
    (∀ c ∈ (clean_text (PyValue.ofString s)).data, isAllowedChar c = true) ∧
    (∀ c : Char,
      ((clean_text (PyValue.ofString s)).data.head? = some c → isPySpace c = false) ∧
      ((clean_text (PyValue.ofString s)).data.getLast? = some c → isPySpace c = false)) := by
  constructor
  · intro c hc
    have hc2 : c ∈ pyStripList (List.filter isAllowedChar (collapseWs s.data)) := hc
    exact (List.mem_filter.mp (mem_pyStripList hc2)).2
  · intro c
    exact ⟨fun h => pyStripList_head? h, fun h => pyStripList_getLast? h⟩

/-- Claim C5 witness: the character b occurs in the cleaned output of the
counterexample string and is in the allowed set. -/
theorem clean_text_output_charset_and_trim_witness :
    isAllowedChar 'b' = true :=
  (clean_text_output_charset_and_trim "a !@ b").1 'b' (by decide)

/-- Claim C6 counterexample: a non-string value whose str form is a Python
list literal is returned verbatim, including the disallowed brackets;
applying the string pipeline to the same text would strip them, so the
claimed filtering does not happen. -/
theorem clean_text_nonString_counterexample :
    clean_text (PyValue.nonString "[1, 2]") = "[1, 2]" ∧
    cleanTextStr "[1, 2]" = "1, 2" ∧
    ("[1, 2]" : String) ≠ "1, 2" := by
  refine ⟨rfl, by decide, by decide⟩

/-- Claim C6 (amended): for every non-string input, clean_text returns the
input's string representation unchanged; the whitespace-collapsing and
character-filtering pipeline is not applied, because the non-string branch
returns str(text) immediately. -/
theorem clean_text_nonString_identity (r : String) :
    clean_text (PyValue.nonString r) = r := rfl

/-- Claim C7: the LinkedIn job_type inference is case-insensitive keyword
matching with fixed precedence: a contract term gives Contract, otherwise
part-time gives Part-time, otherwise an internship term (the keyword
intern) gives Internship, otherwise temporary gives Temporary, otherwise
the default Full-time; with the three concrete instances of the spec. -/
theorem inferJobType_precedence :
    inferJobType "Contract Engineer" = "Contract" ∧
    inferJobType "Part-time Analyst" = "Part-time" ∧
    inferJobType "Senior Software Engineer" = "Full-time" ∧
    (∀ t : String,
      (containsSub (strToLower t) "contract" = true ∨ containsSub (strToLower t) "contractor" = true) →
      inferJobType t = "Contract") ∧
    (∀ t : String, containsSub (strToLower t) "contract" = false →
      containsSub (strToLower t) "contractor" = false →
      containsSub (strToLower t) "part-time" = true →
      inferJobType t = "Part-time") ∧
    (∀ t : String, containsSub (strToLower t) "contract" = false →
      containsSub (strToLower t) "contractor" = false →
      containsSub (strToLower t) "part-time" = false →
      containsSub (strToLower t) "intern" = true →
      inferJobType t = "Internship") ∧
    (∀ t : String, containsSub (strToLower t) "contract" = false →
      containsSub (strToLower t) "contractor" = false →
      containsSub (strToLower t) "part-time" = false →
      containsSub (strToLower t) "intern" = false →
      containsSub (strToLower t) "temporary" = true →
      inferJobType t = "Temporary") ∧
    (∀ t : String, containsSub (strToLower t) "contract" = false →
      containsSub (strToLower t) "contractor" = false →
      containsSub (strToLower t) "part-time" = false →
      containsSub (strToLower t) "intern" = false →
      containsSub (strToLower t) "temporary" = false →
      inferJobType t = "Full-time") := by
  refine ⟨by decide, by decide, by decide, ?_, ?_, ?_, ?_, ?_⟩
  · intro t h
    rcases h with h | h <;> simp [inferJobType, h]
  · intro t h1 h2 h3
    simp [inferJobType, h1, h2, h3]
  · intro t h1 h2 h3 h4
    simp [inferJobType, h1, h2, h3, h4]
  · intro t h1 h2 h3 h4 h5
    simp [inferJobType, h1, h2, h3, h4, h5]
  · intro t h1 h2 h3 h4 h5
    simp [inferJobType, h1, h2, h3, h4, h5]

/-- Claim C7 witness: a fresh contract title resolved through the general
precedence branch. -/
theorem inferJobType_precedence_witness :
    inferJobType "Contract Consultant" = "Contract" :=
  inferJobType_precedence.2.2.2.1 "Contract Consultant" (Or.inl (by decide))

/-- Claim C8: when the three required sub-nodes are present and the
optional salary sub-node is absent, both extractors return a non-empty
record whose salary field is the default Not specified (clean_text leaves
that literal unchanged) and whose other fields are populated from the
card. -/
theorem extract_missing_salary_default :
    (∀ job tEl cEl lEl : Node,
      findNode job "h2" "jobTitle" = some tEl →
      findNode job "span" "companyName" = some cEl →
      findNode job "div" "companyLocation" = some lEl →
      findNode job "div" "salary-snippet" = none →
      indeedExtractJobData job =
        [("title", cleanTextStr (pyStrip tEl.text)),
         ("company", cleanTextStr (pyStrip cEl.text)),
         ("location", cleanTextStr (pyStrip lEl.text)),
         ("salary", "Not specified"),
         ("source", "Indeed")] ∧
      indeedExtractJobData job ≠ []) ∧
    (∀ job tEl cEl lEl : Node,
      findNode job "h3" "base-search-card__title" = some tEl →
      findNode job "h4" "base-search-card__subtitle" = some cEl →
      findNode job "span" "job-search-card__location" = some lEl →
      findNode job "span" "job-search-card__salary-info" = none →
      linkedinExtractJobData job =
        [("title", cleanTextStr (pyStrip tEl.text)),
         ("company", cleanTextStr (pyStrip cEl.text)),
         ("location", cleanTextStr (pyStrip lEl.text)),
         ("salary", "Not specified"),
         ("job_type", inferJobType (pyStrip tEl.text)),
         ("source", "LinkedIn")] ∧
      linkedinExtractJobData job ≠ []) := by
  have hns : cleanTextStr "Not specified" = "Not specified" := by decide
  constructor
  · intro job tEl cEl lEl ht hc hl hs
    constructor
    · simp [indeedExtractJobData, ht, hc, hl, indeedSalary, hs, hns]
    · simp [indeedExtractJobData, ht, hc, hl]
  · intro job tEl cEl lEl ht hc hl hs
    constructor
    · simp [linkedinExtractJobData, ht, hc, hl, linkedinSalary, hs, hns]
    · simp [linkedinExtractJobData, ht, hc, hl]

/-- Claim C8 witness: the salary-less sample Indeed card yields a
non-empty record. -/
theorem extract_missing_salary_default_witness :
    indeedExtractJobData sampleIndeedCard ≠ [] :=
  (extract_missing_salary_default.1 sampleIndeedCard
    (Node.elem "h2" ["jobTitle"] "Software Engineer" .nil)
    (Node.elem "span" ["companyName"] "Acme Corp" .nil)
    (Node.elem "div" ["companyLocation"] "Remote" .nil)
    rfl rfl rfl rfl).2

/-- Claim C9: scrape_job_listings with maxPages = N issues at most N
page-fetch attempts (the fetch trace has one entry per page index), and
the returned list is the concatenation, in increasing page order, of the
per-page lists, each of which keeps the order of the job-card nodes the
page's find_all produced. -/
theorem scrape_pagination_order (web : Web) (url : String) (maxPages : Nat) :
    (indeedFetchTrace web url maxPages).length ≤ maxPages ∧
    indeedScrapeJobListings web url maxPages =
      (List.range maxPages).flatMap (indeedPageJobs web url) ∧
    (linkedinFetchTrace web url maxPages).length ≤ maxPages ∧
    linkedinScrapeJobListings web url maxPages =
      (List.range maxPages).flatMap (linkedinPageJobs web url) := by
  refine ⟨?_, indeedScrape_flatMap web url maxPages, ?_,
    linkedinScrape_flatMap web url maxPages⟩
  · rw [indeedTrace_map]
    simp
  · rw [linkedinTrace_map]
    simp

/-- Claim C10: a non-empty record from the LinkedIn extractor has a
job_type that is one of the five literals and source equal to the literal
LinkedIn; the job_type value is the inference applied to the raw stripped
title, stored as-is, while title, company, location and salary pass
through clean_text. -/
theorem linkedin_record_invariants (job : Node) (r : Dict)
    (he : linkedinExtractJobData job = r) (hne : r ≠ []) :
    (∃ jt, r.lookup "job_type" = some jt ∧
      jt ∈ (["Contract", "Part-time", "Internship", "Temporary", "Full-time"] : List String)) ∧
    r.lookup "source" = some "LinkedIn" ∧
    ∃ tEl cEl lEl : Node,
      findNode job "h3" "base-search-card__title" = some tEl ∧
      findNode job "h4" "base-search-card__subtitle" = some cEl ∧
      findNode job "span" "job-search-card__location" = some lEl ∧
      r.lookup "title" = some (cleanTextStr (pyStrip tEl.text)) ∧
      r.lookup "company" = some (cleanTextStr (pyStrip cEl.text)) ∧
      r.lookup "location" = some (cleanTextStr (pyStrip lEl.text)) ∧
      r.lookup "salary" = some (cleanTextStr (linkedinSalary job)) ∧
      r.lookup "job_type" = some (inferJobType (pyStrip tEl.text)) := by
  subst he
  rcases linkedinExtract_shape job with h0 | ⟨t, c, l, ht, hc, hl, hr⟩
  · exact absurd h0 hne
  · refine ⟨⟨inferJobType (pyStrip t.text), by rw [hr]; rfl, inferJobType_mem_five _⟩,
      by rw [hr]; rfl, t, c, l, ht, hc, hl, by rw [hr]; rfl, by rw [hr]; rfl,
      by rw [hr]; rfl, by rw [hr]; rfl, by rw [hr]; rfl⟩

/-- Claim C10 witness: the sample LinkedIn card's record names LinkedIn as
its source. -/
theorem linkedin_record_invariants_witness :
    (linkedinExtractJobData sampleLinkedinCard).lookup "source" = some "LinkedIn" :=
  (linkedin_record_invariants sampleLinkedinCard _ rfl (by decide)).2.1

end Webscrapper
